import Mathlib

/-!
Shallow embedding of the failure-tracking / auto-disable engine of
CLIProxyAPI (`internal/failure/track.go`, `internal/failure/integration.go`,
`internal/failure/routing.go`, `internal/runtime/executor/failure_tracking.go`).

Timestamps are modelled as integers (`Int`); the Go zero `time.Time`
is modelled as `0`, `a.After b` as `b < a` and `a.Before b` as `a < b`.
`time.Now()` values are always positive (the wall clock is far past the Go
zero time), which appears as `0 < now` hypotheses where a claim needs it.
The `int32` failure counter is modelled as `Int` with explicit wrap-around
on increment (`inc32`).  Functions whose Go signature returns an `error`
return a `× Option String` component, `none` meaning a `nil` error.
-/

namespace CLIProxy

/-- `config.AutoDisableConfig` (three-level auto-disable settings shape). -/
structure AutoDisableConfig where
  failureThreshold : Int
  timeWindowSeconds : Int
  disableDurationSeconds : Int
deriving Repr, DecidableEq

/-- The hard-coded default auto-disable policy `{5, 60, 300}`. -/
def defaultAutoDisable : AutoDisableConfig :=
  { failureThreshold := 5, timeWindowSeconds := 60, disableDurationSeconds := 300 }

/-- Modelled from the spec: the body of `config.AutoDisableConfig.GetEffectiveConfig`
is not part of this source slice (only its callers and the test
`TestAutoDisableConfig_GetEffectiveConfig` in `internal/storage/postgres/plugin.go`
are).  Per the spec, a nil config yields the hard default `{5, 60, 300}` and any
individual zero/unset field is filled from the hard default. -/
def getEffectiveConfig : Option AutoDisableConfig → AutoDisableConfig
  | none => defaultAutoDisable
  | some c =>
    { failureThreshold :=
        if c.failureThreshold = 0 then defaultAutoDisable.failureThreshold
        else c.failureThreshold,
      timeWindowSeconds :=
        if c.timeWindowSeconds = 0 then defaultAutoDisable.timeWindowSeconds
        else c.timeWindowSeconds,
      disableDurationSeconds :=
        if c.disableDurationSeconds = 0 then defaultAutoDisable.disableDurationSeconds
        else c.disableDurationSeconds }

/-- `failure.GetEffectiveAutoDisableConfig` (`internal/failure/integration.go`):
model-level config wins outright, else vendor, else global, else the default. -/
def GetEffectiveAutoDisableConfig
    (globalConfig vendorConfig modelConfig : Option AutoDisableConfig) :
    AutoDisableConfig :=
  match modelConfig with
  | some mc => getEffectiveConfig (some mc)
  | none =>
    match vendorConfig with
    | some vc => getEffectiveConfig (some vc)
    | none =>
      match globalConfig with
      | some gc => getEffectiveConfig (some gc)
      | none =>
        { failureThreshold := 5, timeWindowSeconds := 60, disableDurationSeconds := 300 }

/-- `failure.FailureRecord`: failure state for one vendor-model pair. -/
structure FailureRecord where
  vendor : String
  model : String
  failureCount : Int
  firstFailure : Int
  lastFailure : Int
  disabledAt : Int
  disabledUntil : Int
  effectiveConfig : AutoDisableConfig
deriving Repr, DecidableEq

/-- `failure.DisabledModel`: the read projection returned by `GetDisabledModels`. -/
structure DisabledModel where
  vendor : String
  model : String
  failureCount : Int
  disabledAt : Int
  disabledUntil : Int
  remainingTime : Int
  failureThreshold : Int
deriving Repr, DecidableEq

/-- Increment of the `int32` field `FailureRecord.FailureCount` with two's
complement wrap-around. -/
def inc32 (c : Int) : Int := (c + 1 + 2 ^ 31) % 2 ^ 32 - 2 ^ 31

/-- The tracker's record store: an association list standing for the
`sync.Map` keyed by `"vendor:model"` (each key bound at most once). -/
def findRecord : List (String × FailureRecord) → String → Option FailureRecord
  | [], _ => none
  | (k', r) :: rest, k => if k' = k then some r else findRecord rest k

/-- `sync.Map.Store`: replace the binding for `k` in place, or append it. -/
def storeRecord : List (String × FailureRecord) → String → FailureRecord →
    List (String × FailureRecord)
  | [], k, r => [(k, r)]
  | (k', r') :: rest, k, r =>
    if k' = k then (k, r) :: rest else (k', r') :: storeRecord rest k r

/-- `failureTracker` state: the record store plus the global config pointer. -/
structure TrackerState where
  records : List (String × FailureRecord)
  globalConfig : Option AutoDisableConfig
deriving Repr, DecidableEq

/-- A freshly constructed tracker with an empty record store. -/
def emptyTracker (g : Option AutoDisableConfig) : TrackerState :=
  { records := [], globalConfig := g }

/-- `failureTracker.key`: `fmt.Sprintf("%s:%s", vendor, model)`. -/
def trackerKey (vendor model : String) : String := vendor ++ ":" ++ model

/-- `failureTracker.GetEffectiveConfig` applied to a global config value:
nil gives the literal default, otherwise `GetEffectiveConfig` of the global. -/
def effCfg : Option AutoDisableConfig → AutoDisableConfig
  | none =>
    { failureThreshold := 5, timeWindowSeconds := 60, disableDurationSeconds := 300 }
  | some g => getEffectiveConfig (some g)

/-- `failureTracker.GetEffectiveConfig(vendor, model)` (vendor/model lookup is
an unimplemented TODO in the source; only the global config is consulted). -/
def trackerEffectiveConfig (t : TrackerState) : AutoDisableConfig :=
  effCfg t.globalConfig

/-- `failureTracker.TrackFailure(vendor, model)` at wall-clock time `now`. -/
def TrackFailure (t : TrackerState) (vendor model : String) (now : Int) :
    TrackerState × Option String :=
  let key := trackerKey vendor model
  let effectiveConfig := trackerEffectiveConfig t
  let record : FailureRecord :=
    match findRecord t.records key with
    | none =>
      { vendor := vendor, model := model, failureCount := 1, firstFailure := now,
        lastFailure := 0, disabledAt := 0, disabledUntil := 0,
        effectiveConfig := effectiveConfig }
    | some r => { r with failureCount := inc32 r.failureCount }
  let record := { record with lastFailure := now }
  let windowStart := now - effectiveConfig.timeWindowSeconds
  let record :=
    if windowStart < record.firstFailure ∧
        effectiveConfig.failureThreshold ≤ record.failureCount then
      { record with disabledAt := now,
                    disabledUntil := now + effectiveConfig.disableDurationSeconds }
    else record
  ({ t with records := storeRecord t.records key record }, none)

/-- `failureTracker.TrackSuccess(vendor, model)` (reads no clock). -/
def TrackSuccess (t : TrackerState) (vendor model : String) :
    TrackerState × Option String :=
  match findRecord t.records (trackerKey vendor model) with
  | none => (t, none)
  | some r =>
    let rec' :=
      if r.disabledUntil = 0 then { r with failureCount := 0, firstFailure := 0 }
      else r
    ({ t with records := storeRecord t.records (trackerKey vendor model) rec' }, none)

/-- `failureTracker.IsDisabled(vendor, model)` at wall-clock time `now`. -/
def IsDisabled (t : TrackerState) (vendor model : String) (now : Int) :
    Bool × Option String :=
  match findRecord t.records (trackerKey vendor model) with
  | none => (false, none)
  | some r => (decide (r.disabledAt ≠ 0 ∧ now < r.disabledUntil), none)

/-- `failureTracker.GetDisabledModels()` at wall-clock time `now`. -/
def GetDisabledModels (t : TrackerState) (now : Int) : List DisabledModel :=
  t.records.filterMap fun p =>
    if p.2.disabledAt ≠ 0 ∧ now < p.2.disabledUntil then
      some { vendor := p.2.vendor, model := p.2.model,
             failureCount := p.2.failureCount, disabledAt := p.2.disabledAt,
             disabledUntil := p.2.disabledUntil,
             remainingTime := p.2.disabledUntil - now,
             failureThreshold := p.2.effectiveConfig.failureThreshold }
    else none

/-- `failureTracker.EnableModel(vendor, model)`. -/
def EnableModel (t : TrackerState) (vendor model : String) :
    TrackerState × Option String :=
  match findRecord t.records (trackerKey vendor model) with
  | none => (t, none)
  | some r =>
    let rec' := { r with failureCount := 0, firstFailure := 0, lastFailure := 0,
                         disabledAt := 0, disabledUntil := 0 }
    ({ t with records := storeRecord t.records (trackerKey vendor model) rec' }, none)

/-- `failureTracker.GetFailureCount(vendor, model)`. -/
def GetFailureCount (t : TrackerState) (vendor model : String) :
    Int × Option String :=
  match findRecord t.records (trackerKey vendor model) with
  | none => (0, none)
  | some r => (r.failureCount, none)

/-- One pass of `failureTracker.checkAndReenable` at wall-clock time `now`. -/
def checkAndReenable (t : TrackerState) (now : Int) : TrackerState :=
  { t with records := t.records.map fun p =>
      if p.2.disabledAt ≠ 0 ∧ p.2.disabledUntil < now then
        (p.1, { p.2 with failureCount := 0, firstFailure := 0, lastFailure := 0,
                         disabledAt := 0, disabledUntil := 0 })
      else p }

/-- `failure.RoutingIntegration` (a nil tracker is allowed). -/
structure RoutingIntegration where
  tracker : Option TrackerState

/-- `RoutingIntegration.IsModelDisabled`. -/
def RoutingIntegration.IsModelDisabled (ri : RoutingIntegration)
    (vendor model : String) (now : Int) : Bool × Option String :=
  match ri.tracker with
  | none => (false, none)
  | some t => IsDisabled t vendor model now

/-- `RoutingIntegration.IsEnabled`: the static enabled flag short-circuits,
otherwise the auto-disable state is consulted. -/
def RoutingIntegration.IsEnabled (ri : RoutingIntegration) (vendor model : String)
    (explicitlyEnabled : Option Bool) (now : Int) : Bool × Option String :=
  if explicitlyEnabled = some false then (false, none)
  else
    match ri.IsModelDisabled vendor model now with
    | (disabled, none) => (!disabled, none)
    | (_, some e) => (false, some e)

/-- `executor.ProviderAliases` (`internal/runtime/executor/failure_tracking.go`). -/
def ProviderAliases : List (String × String) :=
  [("openai-compat", "openai-compatibility"),
   ("vertex", "vertex"),
   ("gemini", "gemini"),
   ("gemini-cli", "gemini-cli"),
   ("claude", "claude"),
   ("codex", "codex"),
   ("qwen", "qwen"),
   ("aistudio", "aistudio"),
   ("antigravity", "antigravity"),
   ("iflow", "iflow")]

/-- Go map lookup over the alias table. -/
def lookupAlias : List (String × String) → String → Option String
  | [], _ => none
  | (k, v) :: rest, p => if p = k then some v else lookupAlias rest p

/-- `executor.GetVendorName`: the alias if the provider is in the table,
otherwise the provider string itself. -/
def GetVendorName (provider : String) : String :=
  match lookupAlias ProviderAliases provider with
  | some a => a
  | none => provider

/-- A single tracker operation (the mutating API surface of `FailureTracker`
together with the auto-reenable sweep). -/
inductive TrackerOp where
  | fail (vendor model : String) (now : Int)
  | succ (vendor model : String)
  | enable (vendor model : String)
  | sweep (now : Int)

/-- Apply one operation to the tracker state. -/
def applyOp (t : TrackerState) : TrackerOp → TrackerState
  | .fail v m now => (TrackFailure t v m now).1
  | .succ v m => (TrackSuccess t v m).1
  | .enable v m => (EnableModel t v m).1
  | .sweep now => checkAndReenable t now

/-- Apply a sequence of operations. -/
def runOps (t : TrackerState) (ops : List TrackerOp) : TrackerState :=
  ops.foldl applyOp t

/-- An operation carries a plausible wall-clock reading (`time.Now()` is
always strictly positive in this model). -/
def opTimeOK : TrackerOp → Bool
  | .fail _ _ now => decide (0 < now)
  | .sweep _ => true
  | .succ _ _ => true
  | .enable _ _ => true

/-- Run `TrackFailure` for one pair at each time in `ts`, in order. -/
def runTF (s : TrackerState) (vendor model : String) (ts : List Int) :
    TrackerState :=
  ts.foldl (fun s t => (TrackFailure s vendor model t).1) s

/-- The state after tracking failures at times `ts` for one pair, starting
from a fresh tracker with global config `g`. -/
def failTimes (g : Option AutoDisableConfig) (vendor model : String)
    (ts : List Int) : TrackerState :=
  runTF (emptyTracker g) vendor model ts

/-! ### Store lemmas -/

theorem findRecord_storeRecord_self (l : List (String × FailureRecord))
    (k : String) (r : FailureRecord) :
    findRecord (storeRecord l k r) k = some r := by
  induction l with
  | nil => simp [storeRecord, findRecord]
  | cons p rest ih =>
    obtain ⟨k', r'⟩ := p
    by_cases h : k' = k
    · simp [storeRecord, findRecord, h]
    · simp [storeRecord, findRecord, h, ih]

theorem storeRecord_of_findRecord {l : List (String × FailureRecord)}
    {k : String} {r : FailureRecord} (h : findRecord l k = some r) :
    storeRecord l k r = l := by
  induction l with
  | nil => simp [findRecord] at h
  | cons p rest ih =>
    obtain ⟨k', r'⟩ := p
    by_cases hk : k' = k
    · subst hk
      simp [findRecord] at h
      simp [storeRecord, h]
    · simp [findRecord, hk] at h
      simp [storeRecord, hk, ih h]

theorem mem_of_findRecord {l : List (String × FailureRecord)}
    {k : String} {r : FailureRecord} (h : findRecord l k = some r) :
    (k, r) ∈ l := by
  induction l with
  | nil => simp [findRecord] at h
  | cons p rest ih =>
    obtain ⟨k', r'⟩ := p
    by_cases hk : k' = k
    · subst hk
      simp [findRecord] at h
      simp [h]
    · simp [findRecord, hk] at h
      exact List.mem_cons_of_mem _ (ih h)

theorem findRecord_of_mem_nodup {l : List (String × FailureRecord)}
    {k : String} {r : FailureRecord} (h : (k, r) ∈ l)
    (hnd : (l.map Prod.fst).Nodup) : findRecord l k = some r := by
  induction l with
  | nil => simp at h
  | cons p rest ih =>
    obtain ⟨k', r'⟩ := p
    simp only [List.map_cons, List.nodup_cons] at hnd
    rcases List.mem_cons.mp h with heq | hmem
    · obtain ⟨rfl, rfl⟩ := Prod.mk.injEq .. ▸ heq
      simp [findRecord]
    · have hk : k' ≠ k := by
        intro hcontra
        subst hcontra
        exact hnd.1 (List.mem_map.mpr ⟨(k', r), hmem, rfl⟩)
      simp [findRecord, hk, ih hmem hnd.2]

theorem mem_storeRecord {l : List (String × FailureRecord)}
    {k : String} {r : FailureRecord} {p : String × FailureRecord}
    (h : p ∈ storeRecord l k r) : p = (k, r) ∨ p ∈ l := by
  induction l with
  | nil => simpa [storeRecord] using h
  | cons q rest ih =>
    obtain ⟨k', r'⟩ := q
    by_cases hk : k' = k
    · simp only [storeRecord, hk, if_pos] at h
      rcases List.mem_cons.mp h with heq | hmem
      · exact Or.inl heq
      · exact Or.inr (List.mem_cons_of_mem _ hmem)
    · simp only [storeRecord, hk, if_neg, not_false_iff] at h
      rcases List.mem_cons.mp h with heq | hmem
      · exact Or.inr (heq ▸ List.mem_cons_self _ _)
      · rcases ih hmem with h1 | h2
        · exact Or.inl h1
        · exact Or.inr (List.mem_cons_of_mem _ h2)

/-! ### Arithmetic of the 32-bit counter -/

theorem inc32_eq_add_one {c : Int} (h1 : -(2 ^ 31) ≤ c) (h2 : c < 2 ^ 31 - 1) :
    inc32 c = c + 1 := by
  have e31 : (2 : Int) ^ 31 = 2147483648 := by norm_num
  have e32 : (2 : Int) ^ 32 = 4294967296 := by norm_num
  unfold inc32
  rw [Int.emod_eq_of_lt (by omega) (by omega)]
  ring

/-! ### C5: three-level config resolution -/

/-- C5: the resolver picks the whole block at the most specific present level
(model over vendor over global, with the hard default `{5, 60, 300}` when all
are absent); any zero/unset field within the chosen level is filled from the
hard default rather than from a broader level; and the result is always fully
populated (no zero field).  Determinism is definitional: the resolver is a
pure function of its three inputs. -/
theorem spec_C5 (g v mo : Option AutoDisableConfig) :
    (∀ mc : AutoDisableConfig, mo = some mc →
      GetEffectiveAutoDisableConfig g v mo =
        { failureThreshold :=
            if mc.failureThreshold = 0 then 5 else mc.failureThreshold,
          timeWindowSeconds :=
            if mc.timeWindowSeconds = 0 then 60 else mc.timeWindowSeconds,
          disableDurationSeconds :=
            if mc.disableDurationSeconds = 0 then 300
            else mc.disableDurationSeconds }) ∧
    (∀ vc : AutoDisableConfig, mo = none → v = some vc →
      GetEffectiveAutoDisableConfig g v mo =
        { failureThreshold :=
            if vc.failureThreshold = 0 then 5 else vc.failureThreshold,
          timeWindowSeconds :=
            if vc.timeWindowSeconds = 0 then 60 else vc.timeWindowSeconds,
          disableDurationSeconds :=
            if vc.disableDurationSeconds = 0 then 300
            else vc.disableDurationSeconds }) ∧
    (∀ gc : AutoDisableConfig, mo = none → v = none → g = some gc →
      GetEffectiveAutoDisableConfig g v mo =
        { failureThreshold :=
            if gc.failureThreshold = 0 then 5 else gc.failureThreshold,
          timeWindowSeconds :=
            if gc.timeWindowSeconds = 0 then 60 else gc.timeWindowSeconds,
          disableDurationSeconds :=
            if gc.disableDurationSeconds = 0 then 300
            else gc.disableDurationSeconds }) ∧
    (mo = none → v = none → g = none →
      GetEffectiveAutoDisableConfig g v mo = defaultAutoDisable) ∧
    ((GetEffectiveAutoDisableConfig g v mo).failureThreshold ≠ 0 ∧
     (GetEffectiveAutoDisableConfig g v mo).timeWindowSeconds ≠ 0 ∧
     (GetEffectiveAutoDisableConfig g v mo).disableDurationSeconds ≠ 0) := by
  refine ⟨?_, ?_, ?_, ?_, ?_⟩
  · rintro mc rfl
    simp [GetEffectiveAutoDisableConfig, getEffectiveConfig, defaultAutoDisable]
  · rintro vc rfl rfl
    simp [GetEffectiveAutoDisableConfig, getEffectiveConfig, defaultAutoDisable]
  · rintro gc rfl rfl rfl
    simp [GetEffectiveAutoDisableConfig, getEffectiveConfig, defaultAutoDisable]
  · rintro rfl rfl rfl
    simp [GetEffectiveAutoDisableConfig, defaultAutoDisable]
  · rcases mo with _ | mc
    · rcases v with _ | vc
      · rcases g with _ | gc
        · simp [GetEffectiveAutoDisableConfig]
        · simp only [GetEffectiveAutoDisableConfig, getEffectiveConfig,
            defaultAutoDisable]
          refine ⟨?_, ?_, ?_⟩ <;> split_ifs <;> omega
      · simp only [GetEffectiveAutoDisableConfig, getEffectiveConfig,
          defaultAutoDisable]
        refine ⟨?_, ?_, ?_⟩ <;> split_ifs <;> omega
    · simp only [GetEffectiveAutoDisableConfig, getEffectiveConfig,
        defaultAutoDisable]
      refine ⟨?_, ?_, ?_⟩ <;> split_ifs <;> omega

/-- Witness for C5: a partially-set model-level config `{0, 120, 0}` wins over
a fully-set vendor config `{7, 8, 9}`, with the zero fields filled from the
hard default (5 and 300), not from the vendor level. -/
theorem spec_C5_witness :
    GetEffectiveAutoDisableConfig none (some ⟨7, 8, 9⟩) (some ⟨0, 120, 0⟩) =
      { failureThreshold := 5, timeWindowSeconds := 120,
        disableDurationSeconds := 300 } := by
  have h := (spec_C5 none (some ⟨7, 8, 9⟩) (some ⟨0, 120, 0⟩)).1 ⟨0, 120, 0⟩ rfl
  simpa using h

/-! ### C6: routing adapter -/

theorem isModelDisabled_snd_none (ri : RoutingIntegration) (v m : String)
    (now : Int) : (RoutingIntegration.IsModelDisabled ri v m now).snd = none := by
  rcases ri with ⟨_ | t⟩
  · rfl
  · rcases h : findRecord t.records (trackerKey v m) with _ | r <;>
      simp [RoutingIntegration.IsModelDisabled, IsDisabled, h]

/-- C6: if the explicit enabled flag is present and false, the routing
adapter's `IsEnabled` returns false regardless of the tracker's state (so a
statically-disabled pair with zero tracked failures is reported not enabled);
otherwise it returns the negation of the tracker's `IsDisabled` answer. -/
theorem spec_C6 (ri : RoutingIntegration) (v m : String) (flag : Option Bool)
    (now : Int) :
    (RoutingIntegration.IsEnabled ri v m flag now).fst =
      if flag = some false then false
      else !(RoutingIntegration.IsModelDisabled ri v m now).fst := by
  unfold RoutingIntegration.IsEnabled
  by_cases h : flag = some false
  · simp [h]
  · have herr := isModelDisabled_snd_none ri v m now
    rcases hmd : RoutingIntegration.IsModelDisabled ri v m now with ⟨b, e⟩
    rw [hmd] at herr
    simp only at herr
    subst herr
    simp [h, hmd]

/-! ### C10: vendor-name normalization -/

/-- C10: vendor-name normalization is idempotent — applying `GetVendorName`
to an already-normalized name returns it unchanged — and any provider not
listed in the alias table is returned as-is. -/
theorem spec_C10 (p : String) :
    GetVendorName (GetVendorName p) = GetVendorName p ∧
    (lookupAlias ProviderAliases p = none → GetVendorName p = p) := by
  constructor
  · rcases h : lookupAlias ProviderAliases p with _ | a
    · simp [GetVendorName, h]
    · have hp : GetVendorName p = a := by simp [GetVendorName, h]
      rw [hp]
      simp only [ProviderAliases, lookupAlias] at h
      split_ifs at h
      all_goals
        first
          | exact Option.noConfusion h
          | (injection h with h
             subst h
             decide)
  · intro h
    simp [GetVendorName, h]

/-- Witness for C10 at the unlisted provider `"foo"`. -/
theorem spec_C10_witness :
    lookupAlias ProviderAliases "foo" = none ∧ GetVendorName "foo" = "foo" :=
  ⟨by decide, (spec_C10 "foo").2 (by decide)⟩

/-! ### Characterization lemmas for the tracker operations -/

theorem trackFailure_existing {t : TrackerState} {v m : String} {now : Int}
    {r : FailureRecord} (h : findRecord t.records (trackerKey v m) = some r) :
    TrackFailure t v m now =
      ({ t with records := (storeRecord t.records (trackerKey v m)
          (if now - (trackerEffectiveConfig t).timeWindowSeconds < r.firstFailure ∧
              (trackerEffectiveConfig t).failureThreshold ≤ inc32 r.failureCount then
            { r with failureCount := inc32 r.failureCount, lastFailure := now,
                     disabledAt := now,
                     disabledUntil :=
                       now + (trackerEffectiveConfig t).disableDurationSeconds }
          else
            { r with failureCount := inc32 r.failureCount, lastFailure := now })) },
       none) := by
  simp only [TrackFailure, h]

theorem findRecord_checkAndReenable (s : TrackerState) (now : Int) (k : String) :
    findRecord (checkAndReenable s now).records k =
      (findRecord s.records k).map fun r =>
        if r.disabledAt ≠ 0 ∧ r.disabledUntil < now then
          { r with failureCount := 0, firstFailure := 0, lastFailure := 0,
                   disabledAt := 0, disabledUntil := 0 }
        else r := by
  simp only [checkAndReenable]
  induction s.records with
  | nil => simp [findRecord]
  | cons p rest ih =>
    obtain ⟨k', r'⟩ := p
    simp only [List.map_cons]
    by_cases hc : r'.disabledAt ≠ 0 ∧ r'.disabledUntil < now
    · rw [if_pos hc]
      by_cases hk : k' = k
      · subst hk
        simp [findRecord, if_pos hc]
      · simp [findRecord, hk, ih]
    · rw [if_neg hc]
      by_cases hk : k' = k
      · subst hk
        simp [findRecord, if_neg hc]
      · simp [findRecord, hk, ih]

/-- A concrete tracker state: config `{threshold 1, window 60, duration 10}`,
one failure for `("v", "m")` at time 5, which disables the pair from 5 to 15. -/
def pair1 : TrackerState := failTimes (some ⟨1, 60, 10⟩) "v" "m" [5]

/-! ### C2: stability of the disable window -/

/-- C2 counterexample: with `pair1` disabled from 5 until 15, the pair is
still disabled at `now = 12`, yet a further `TrackFailure` at 12 overwrites
`disabledAt` from 5 to 12 and `disabledUntil` from 15 to 22 — refuting the
claim that further failures while disabled leave both fields unchanged. -/
theorem spec_C2_counterexample :
    (IsDisabled pair1 "v" "m" 12).fst = true ∧
    findRecord pair1.records (trackerKey "v" "m") =
      some ⟨"v", "m", 1, 5, 5, 5, 15, ⟨1, 60, 10⟩⟩ ∧
    findRecord ((TrackFailure pair1 "v" "m" 12).1.records) (trackerKey "v" "m") =
      some ⟨"v", "m", 2, 5, 12, 12, 22, ⟨1, 60, 10⟩⟩ := by decide

/-- C2 (amended): while a record exists, a further `TrackFailure` either
leaves `disabledAt`/`disabledUntil` unchanged or re-sets them to
`(now, now + duration)` (re-arming the disable window when the threshold
condition fires again); it never clears them.  `TrackSuccess` never changes
`disabledAt` or `disabledUntil`.  Only the reenable sweep and `EnableModel`
clear them. -/
theorem spec_C2_amended (s : TrackerState) (v m : String) (now : Int)
    (r : FailureRecord) (h : findRecord s.records (trackerKey v m) = some r) :
    (∀ r', findRecord ((TrackFailure s v m now).1.records) (trackerKey v m) =
        some r' →
      (r'.disabledAt = r.disabledAt ∧ r'.disabledUntil = r.disabledUntil) ∨
      (r'.disabledAt = now ∧
       r'.disabledUntil = now + (trackerEffectiveConfig s).disableDurationSeconds)) ∧
    (∀ r', findRecord ((TrackSuccess s v m).1.records) (trackerKey v m) =
        some r' →
      r'.disabledAt = r.disabledAt ∧ r'.disabledUntil = r.disabledUntil) := by
  constructor
  · intro r' hr'
    rw [trackFailure_existing h] at hr'
    simp only [findRecord_storeRecord_self, Option.some.injEq] at hr'
    subst hr'
    by_cases hc : now - (trackerEffectiveConfig s).timeWindowSeconds <
        r.firstFailure ∧
        (trackerEffectiveConfig s).failureThreshold ≤ inc32 r.failureCount
    · right
      simp [hc]
    · left
      simp [hc]
  · intro r' hr'
    simp only [TrackSuccess, h] at hr'
    simp only [findRecord_storeRecord_self, Option.some.injEq] at hr'
    subst hr'
    by_cases h0 : r.disabledUntil = 0 <;> simp [h0]

/-- Witness for C2 (amended) at `pair1`, `now = 12`. -/
theorem spec_C2_amended_witness :
    findRecord pair1.records (trackerKey "v" "m") =
      some ⟨"v", "m", 1, 5, 5, 5, 15, ⟨1, 60, 10⟩⟩ ∧
    (∀ r', findRecord ((TrackFailure pair1 "v" "m" 12).1.records)
        (trackerKey "v" "m") = some r' →
      (r'.disabledAt = 5 ∧ r'.disabledUntil = 15) ∨
      (r'.disabledAt = 12 ∧
       r'.disabledUntil = 12 + (trackerEffectiveConfig pair1).disableDurationSeconds)) :=
  ⟨by decide,
   (spec_C2_amended pair1 "v" "m" 12 ⟨"v", "m", 1, 5, 5, 5, 15, ⟨1, 60, 10⟩⟩
     (by decide)).1⟩

/-! ### C3: TrackSuccess semantics -/

/-- C3 counterexample: in `pair1` the disable window has expired at
`now = 20` (`IsDisabled` is false, so the pair is "not currently disabled"),
yet `TrackSuccess` does not reset the failure count to 0 — the code tests
`disabledUntil.IsZero()`, not "currently disabled". -/
theorem spec_C3_counterexample :
    findRecord pair1.records (trackerKey "v" "m") =
      some ⟨"v", "m", 1, 5, 5, 5, 15, ⟨1, 60, 10⟩⟩ ∧
    (IsDisabled pair1 "v" "m" 20).fst = false ∧
    (GetFailureCount ((TrackSuccess pair1 "v" "m").1) "v" "m").fst = 1 := by
  decide

/-- C3 (amended): `TrackSuccess` resets `failureCount` to 0 and clears
`firstFailure` exactly when the record's `disabledUntil` is zero (never set,
or cleared by a sweep or `EnableModel`); whenever `disabledUntil` is set —
whether the window is still in effect or already expired but unswept — it
changes nothing.  With no record it is a no-op, and it never errors. -/
theorem spec_C3_amended (s : TrackerState) (v m : String) :
    (findRecord s.records (trackerKey v m) = none →
      TrackSuccess s v m = (s, none)) ∧
    (∀ r, findRecord s.records (trackerKey v m) = some r → r.disabledUntil = 0 →
      (TrackSuccess s v m).1.records =
        storeRecord s.records (trackerKey v m)
          { r with failureCount := 0, firstFailure := 0 } ∧
      (TrackSuccess s v m).2 = none) ∧
    (∀ r, findRecord s.records (trackerKey v m) = some r → r.disabledUntil ≠ 0 →
      TrackSuccess s v m = (s, none)) := by
  refine ⟨?_, ?_, ?_⟩
  · intro h
    simp [TrackSuccess, h]
  · intro r h h0
    simp [TrackSuccess, h, h0]
  · intro r h h0
    simp [TrackSuccess, h, h0, storeRecord_of_findRecord h]

/-- Witness for C3 (amended) at `pair1`: the record's `disabledUntil` is set,
so the success is ignored and the state is unchanged. -/
theorem spec_C3_amended_witness :
    TrackSuccess pair1 "v" "m" = (pair1, none) :=
  (spec_C3_amended pair1 "v" "m").2.2 ⟨"v", "m", 1, 5, 5, 5, 15, ⟨1, 60, 10⟩⟩
    (by decide) (by decide)

/-! ### C4: the auto-reenable sweep -/

/-- C4 counterexample: `pair1` is disabled until 15 and the claim's expiry
premise `now ≥ disabledUntil` holds at `now = 15`, yet one sweep pass leaves
the record untouched (still `disabledAt = 5`): the code re-enables only when
`now` is strictly after `disabledUntil`. -/
theorem spec_C4_counterexample :
    findRecord pair1.records (trackerKey "v" "m") =
      some ⟨"v", "m", 1, 5, 5, 5, 15, ⟨1, 60, 10⟩⟩ ∧
    checkAndReenable pair1 15 = pair1 := by decide

/-- C4 (amended): one sweep pass clears `failureCount`, `firstFailure`,
`lastFailure`, `disabledAt` and `disabledUntil` of every record with
`disabledAt` set whose `disabledUntil` is strictly before `now`, leaving the
record in exactly the state `EnableModel` would leave it in; every other
record (not disabled, or with `now ≤ disabledUntil`) is unchanged. -/
theorem spec_C4_amended (s : TrackerState) (now : Int) (v m : String)
    (r : FailureRecord) (h : findRecord s.records (trackerKey v m) = some r) :
    (r.disabledAt ≠ 0 → r.disabledUntil < now →
      findRecord (checkAndReenable s now).records (trackerKey v m) =
        findRecord ((EnableModel s v m).1.records) (trackerKey v m) ∧
      findRecord (checkAndReenable s now).records (trackerKey v m) =
        some { r with failureCount := 0, firstFailure := 0, lastFailure := 0,
                      disabledAt := 0, disabledUntil := 0 }) ∧
    (¬(r.disabledAt ≠ 0 ∧ r.disabledUntil < now) →
      findRecord (checkAndReenable s now).records (trackerKey v m) = some r) := by
  constructor
  · intro h1 h2
    constructor
    · rw [findRecord_checkAndReenable, h]
      simp only [EnableModel, h, findRecord_storeRecord_self]
      simp [h1, h2]
    · rw [findRecord_checkAndReenable, h]
      simp [h1, h2]
  · intro hnc
    rw [findRecord_checkAndReenable, h]
    simp [hnc]

/-- Witness for C4 (amended) at `pair1`, `now = 16` (strictly past expiry):
the sweep resets the record to the all-cleared state. -/
theorem spec_C4_amended_witness :
    findRecord (checkAndReenable pair1 16).records (trackerKey "v" "m") =
      some ⟨"v", "m", 0, 0, 0, 0, 0, ⟨1, 60, 10⟩⟩ :=
  ((spec_C4_amended pair1 16 "v" "m" ⟨"v", "m", 1, 5, 5, 5, 15, ⟨1, 60, 10⟩⟩
    (by decide)).1 (by decide) (by decide)).2

/-! ### C9: EnableModel -/

/-- C9: `EnableModel` makes `IsDisabled` false and `GetFailureCount` 0
immediately afterward (for any prior state, so in particular for a disabled
pair); it is idempotent — a second call returns the same state unchanged;
on a pair with no record it is a no-op; and it always returns a nil error. -/
theorem spec_C9 (s : TrackerState) (v m : String) (now : Int) :
    (IsDisabled (EnableModel s v m).1 v m now).fst = false ∧
    (GetFailureCount (EnableModel s v m).1 v m).fst = 0 ∧
    EnableModel (EnableModel s v m).1 v m = ((EnableModel s v m).1, none) ∧
    (findRecord s.records (trackerKey v m) = none → EnableModel s v m = (s, none)) ∧
    (EnableModel s v m).2 = none := by
  rcases h : findRecord s.records (trackerKey v m) with _ | r
  · refine ⟨?_, ?_, ?_, ?_, ?_⟩ <;>
      simp [EnableModel, h, IsDisabled, GetFailureCount]
  · have h1 : EnableModel s v m =
        ({ s with records := (storeRecord s.records (trackerKey v m)
            { r with failureCount := 0, firstFailure := 0, lastFailure := 0,
                     disabledAt := 0, disabledUntil := 0 }) }, none) := by
      simp [EnableModel, h]
    have h2 : findRecord (EnableModel s v m).1.records (trackerKey v m) =
        some { r with failureCount := 0, firstFailure := 0, lastFailure := 0,
                      disabledAt := 0, disabledUntil := 0 } := by
      rw [h1]
      exact findRecord_storeRecord_self ..
    refine ⟨?_, ?_, ?_, ?_, ?_⟩
    · simp [IsDisabled, h2]
    · simp [GetFailureCount, h2]
    · rw [h1]
      have h3 := findRecord_storeRecord_self s.records (trackerKey v m)
        { r with failureCount := 0, firstFailure := 0, lastFailure := 0,
                 disabledAt := 0, disabledUntil := 0 }
      simp only [EnableModel, h3]
      rw [storeRecord_of_findRecord h3]
    · intro hcontra
      exact absurd hcontra (by simp [h])
    · rw [h1]

/-- Witness for C9 at `pair1` (a disabled pair), `now = 12`. -/
theorem spec_C9_witness :
    (IsDisabled (EnableModel pair1 "v" "m").1 "v" "m" 12).fst = false ∧
    (GetFailureCount (EnableModel pair1 "v" "m").1 "v" "m").fst = 0 ∧
    EnableModel (EnableModel pair1 "v" "m").1 "v" "m" =
      ((EnableModel pair1 "v" "m").1, none) ∧
    (EnableModel (emptyTracker none) "v" "m" = (emptyTracker none, none)) :=
  have h := spec_C9 pair1 "v" "m" 12
  have h' := spec_C9 (emptyTracker none) "v" "m" 12
  ⟨h.1, h.2.1, h.2.2.1, h'.2.2.2.1 (by decide)⟩

/-! ### C8: the paired-disable invariant -/

/-- A record's `disabledAt` and `disabledUntil` are either both zero or both
set. -/
def recordPaired (r : FailureRecord) : Prop :=
  (r.disabledAt = 0 ∧ r.disabledUntil = 0) ∨
  (r.disabledAt ≠ 0 ∧ r.disabledUntil ≠ 0)

instance (r : FailureRecord) : Decidable (recordPaired r) := by
  unfold recordPaired
  infer_instance

theorem trackFailure_fresh {t : TrackerState} {v m : String} {now : Int}
    (h : findRecord t.records (trackerKey v m) = none) :
    TrackFailure t v m now =
      ({ t with records := (storeRecord t.records (trackerKey v m)
          (if now - (trackerEffectiveConfig t).timeWindowSeconds < now ∧
              (trackerEffectiveConfig t).failureThreshold ≤ 1 then
            { vendor := v, model := m, failureCount := 1, firstFailure := now,
              lastFailure := now, disabledAt := now,
              disabledUntil :=
                now + (trackerEffectiveConfig t).disableDurationSeconds,
              effectiveConfig := trackerEffectiveConfig t }
          else
            { vendor := v, model := m, failureCount := 1, firstFailure := now,
              lastFailure := now, disabledAt := 0, disabledUntil := 0,
              effectiveConfig := trackerEffectiveConfig t })) }, none) := by
  simp only [TrackFailure, h]

theorem applyOp_paired {s : TrackerState} {op : TrackerOp}
    (hdur : 0 ≤ (trackerEffectiveConfig s).disableDurationSeconds)
    (hop : opTimeOK op = true)
    (hinv : ∀ p ∈ s.records, recordPaired p.2) :
    (∀ p ∈ (applyOp s op).records, recordPaired p.2) ∧
    (applyOp s op).globalConfig = s.globalConfig := by
  cases op with
  | fail v m now =>
    have hnow : 0 < now := by simpa [opTimeOK] using hop
    rcases hf : findRecord s.records (trackerKey v m) with _ | r0
    · rw [show applyOp s (.fail v m now) = (TrackFailure s v m now).1 from rfl,
        trackFailure_fresh hf]
      refine ⟨?_, rfl⟩
      intro p hp
      simp only at hp
      rcases mem_storeRecord hp with rfl | hmem
      · by_cases hc : now - (trackerEffectiveConfig s).timeWindowSeconds < now ∧
            (trackerEffectiveConfig s).failureThreshold ≤ 1
        · rw [if_pos hc]
          right
          constructor
          · show now ≠ 0
            exact ne_of_gt hnow
          · show now + (trackerEffectiveConfig s).disableDurationSeconds ≠ 0
            exact ne_of_gt (add_pos_of_pos_of_nonneg hnow hdur)
        · rw [if_neg hc]
          left
          exact ⟨rfl, rfl⟩
      · exact hinv _ hmem
    · rw [show applyOp s (.fail v m now) = (TrackFailure s v m now).1 from rfl,
        trackFailure_existing hf]
      refine ⟨?_, rfl⟩
      intro p hp
      simp only at hp
      rcases mem_storeRecord hp with rfl | hmem
      · by_cases hc : now - (trackerEffectiveConfig s).timeWindowSeconds <
            r0.firstFailure ∧
            (trackerEffectiveConfig s).failureThreshold ≤ inc32 r0.failureCount
        · rw [if_pos hc]
          right
          constructor
          · show now ≠ 0
            exact ne_of_gt hnow
          · show now + (trackerEffectiveConfig s).disableDurationSeconds ≠ 0
            exact ne_of_gt (add_pos_of_pos_of_nonneg hnow hdur)
        · rw [if_neg hc]
          have := hinv _ (mem_of_findRecord hf)
          unfold recordPaired at this ⊢
          simpa using this
      · exact hinv _ hmem
  | succ v m =>
    rcases hf : findRecord s.records (trackerKey v m) with _ | r0
    · refine ⟨?_, ?_⟩
      · simp only [applyOp, TrackSuccess, hf]
        exact hinv
      · simp [applyOp, TrackSuccess, hf]
    · refine ⟨?_, ?_⟩
      · simp only [applyOp, TrackSuccess, hf]
        intro p hp
        rcases mem_storeRecord hp with rfl | hmem
        · have hr0 := hinv _ (mem_of_findRecord hf)
          by_cases h0 : r0.disabledUntil = 0
          · rw [if_pos h0]
            unfold recordPaired at hr0 ⊢
            simpa using hr0
          · rw [if_neg h0]
            exact hr0
        · exact hinv _ hmem
      · simp [applyOp, TrackSuccess, hf]
  | enable v m =>
    rcases hf : findRecord s.records (trackerKey v m) with _ | r0
    · refine ⟨?_, ?_⟩
      · simp only [applyOp, EnableModel, hf]
        exact hinv
      · simp [applyOp, EnableModel, hf]
    · refine ⟨?_, ?_⟩
      · simp only [applyOp, EnableModel, hf]
        intro p hp
        rcases mem_storeRecord hp with rfl | hmem
        · left
          exact ⟨rfl, rfl⟩
        · exact hinv _ hmem
      · simp [applyOp, EnableModel, hf]
  | sweep now =>
    refine ⟨?_, rfl⟩
    intro p hp
    simp only [applyOp, checkAndReenable] at hp
    obtain ⟨q, hq, rfl⟩ := List.mem_map.mp hp
    by_cases hc : q.2.disabledAt ≠ 0 ∧ q.2.disabledUntil < now
    · rw [if_pos hc]
      left
      exact ⟨rfl, rfl⟩
    · rw [if_neg hc]
      exact hinv _ hq

/-- C8: starting from the empty store, any sequence of `TrackFailure`,
`TrackSuccess`, `EnableModel` and auto-reenable sweeps leaves every record
with `disabledAt` and `disabledUntil` either both zero or both set, given
that the effective disable duration is nonnegative and every failure is
stamped with a positive wall-clock time. -/
theorem spec_C8 (g : Option AutoDisableConfig) (ops : List TrackerOp)
    (hdur : 0 ≤ (effCfg g).disableDurationSeconds)
    (hops : ∀ op ∈ ops, opTimeOK op = true) :
    ∀ p ∈ (runOps (emptyTracker g) ops).records, recordPaired p.2 := by
  suffices h : ∀ (ops' : List TrackerOp) (s : TrackerState),
      s.globalConfig = g → (∀ op ∈ ops', opTimeOK op = true) →
      (∀ p ∈ s.records, recordPaired p.2) →
      ∀ p ∈ (runOps s ops').records, recordPaired p.2 by
    exact h ops (emptyTracker g) rfl hops (by simp [emptyTracker])
  intro ops'
  induction ops' with
  | nil =>
    intro s _ _ hinv
    simpa [runOps] using hinv
  | cons op rest ih =>
    intro s hg hops' hinv
    have hdur' : 0 ≤ (trackerEffectiveConfig s).disableDurationSeconds := by
      rw [trackerEffectiveConfig, hg]
      exact hdur
    have step := applyOp_paired hdur' (hops' op (List.mem_cons_self _ _)) hinv
    have hrun : runOps s (op :: rest) = runOps (applyOp s op) rest := rfl
    rw [hrun]
    exact ih (applyOp s op) (step.2.trans hg)
      (fun o ho => hops' o (List.mem_cons_of_mem _ ho)) step.1

/-- Witness for C8: one failure, one success, a sweep and a manual enable
from the default config. -/
theorem spec_C8_witness :
    (∀ op ∈ [TrackerOp.fail "v" "m" 5, TrackerOp.succ "v" "m",
        TrackerOp.sweep 9, TrackerOp.enable "v" "m"], opTimeOK op = true) ∧
    (∀ p ∈ (runOps (emptyTracker none)
        [TrackerOp.fail "v" "m" 5, TrackerOp.succ "v" "m",
         TrackerOp.sweep 9, TrackerOp.enable "v" "m"]).records,
      recordPaired p.2) :=
  ⟨by decide,
   spec_C8 none
     [TrackerOp.fail "v" "m" 5, TrackerOp.succ "v" "m",
      TrackerOp.sweep 9, TrackerOp.enable "v" "m"]
     (by decide) (by decide)⟩

/-! ### C7: GetDisabledModels matches IsDisabled -/

/-- A vendor (or model) name that contains no `:` — the `"vendor:model"`
key scheme is injective on such names. -/
def noColon (s : String) : Prop := ':' ∉ s.data

instance (s : String) : Decidable (noColon s) := by
  unfold noColon
  infer_instance

theorem append_colon_inj :
    ∀ (as : List Char) (bs : List Char) (as' bs' : List Char),
      ':' ∉ as → ':' ∉ as' → as ++ ':' :: bs = as' ++ ':' :: bs' →
      as = as' ∧ bs = bs' := by
  intro as
  induction as with
  | nil =>
    intro bs as' bs' _ h2 heq
    cases as' with
    | nil => simpa using heq
    | cons c t =>
      simp only [List.nil_append, List.cons_append, List.cons.injEq] at heq
      exact absurd (heq.1 ▸ List.mem_cons_self c t) (heq.1 ▸ h2)
  | cons c t ih =>
    intro bs as' bs' h1 h2 heq
    cases as' with
    | nil =>
      simp only [List.nil_append, List.cons_append, List.cons.injEq] at heq
      exact absurd (heq.1 ▸ List.mem_cons_self c t) (fun hmem => h1 (heq.1 ▸ hmem))
    | cons c' t' =>
      simp only [List.cons_append, List.cons.injEq] at heq
      have h1' : ':' ∉ t := fun hm => h1 (List.mem_cons_of_mem _ hm)
      have h2' : ':' ∉ t' := fun hm => h2 (List.mem_cons_of_mem _ hm)
      obtain ⟨ht, hb⟩ := ih bs t' bs' h1' h2' heq.2
      exact ⟨by rw [heq.1, ht], hb⟩

theorem trackerKey_inj {v m v' m' : String} (hv : noColon v) (hv' : noColon v')
    (h : trackerKey v m = trackerKey v' m') : v = v' ∧ m = m' := by
  have hd : v.data ++ ':' :: m.data = v'.data ++ ':' :: m'.data := by
    have hcong := congrArg String.data h
    simpa [trackerKey, String.data_append] using hcong
  obtain ⟨h1, h2⟩ := append_colon_inj v.data m.data v'.data m'.data hv hv' hd
  exact ⟨String.ext h1, String.ext h2⟩

/-- C7: at any single instant, `GetDisabledModels` returns exactly the pairs
for which `IsDisabled` is true at that instant, with
`remainingTime = disabledUntil - now`.  The store is assumed well-formed
(every record is filed under its own `"vendor:model"` key, keys are unique,
and vendor names contain no `:`, so that keys decompose uniquely) — all of
which hold for every store the tracker builds. -/
theorem spec_C7 (s : TrackerState) (now : Int)
    (hwf : ∀ p ∈ s.records,
      p.1 = trackerKey p.2.vendor p.2.model ∧ noColon p.2.vendor)
    (hnd : (s.records.map Prod.fst).Nodup) :
    (∀ d ∈ GetDisabledModels s now,
      (IsDisabled s d.vendor d.model now).fst = true ∧
      d.remainingTime = d.disabledUntil - now) ∧
    (∀ v m : String, noColon v → (IsDisabled s v m now).fst = true →
      ∃ d ∈ GetDisabledModels s now,
        d.vendor = v ∧ d.model = m ∧ d.remainingTime = d.disabledUntil - now) := by
  constructor
  · intro d hd
    obtain ⟨p, hp, hf⟩ := List.mem_filterMap.mp hd
    by_cases hc : p.2.disabledAt ≠ 0 ∧ now < p.2.disabledUntil
    · rw [if_pos hc] at hf
      obtain rfl := Option.some.inj hf
      have hkey := (hwf p hp).1
      have hfind : findRecord s.records (trackerKey p.2.vendor p.2.model) =
          some p.2 :=
        findRecord_of_mem_nodup (by rw [← hkey]; exact hp) hnd
      constructor
      · simp only [IsDisabled, hfind]
        simpa using hc
      · rfl
    · rw [if_neg hc] at hf
      exact Option.noConfusion hf
  · intro v m hv hdis
    rcases hfind : findRecord s.records (trackerKey v m) with _ | r
    · rw [IsDisabled, hfind] at hdis
      simp at hdis
    · rw [IsDisabled, hfind] at hdis
      simp only [decide_eq_true_eq] at hdis
      have hmem := mem_of_findRecord hfind
      have hkey : trackerKey v m = trackerKey r.vendor r.model := (hwf _ hmem).1
      have hvr : noColon r.vendor := (hwf _ hmem).2
      obtain ⟨hv1, hm1⟩ := trackerKey_inj hv hvr hkey
      subst hv1
      subst hm1
      refine ⟨_, List.mem_filterMap.mpr ⟨(trackerKey r.vendor r.model, r),
        hmem, if_pos hdis⟩, rfl, rfl, rfl⟩

/-- Witness for C7 at `pair1`, `now = 10` (inside the disable window). -/
theorem spec_C7_witness :
    ∃ d ∈ GetDisabledModels pair1 10,
      d.vendor = "v" ∧ d.model = "m" ∧ d.remainingTime = d.disabledUntil - 10 :=
  (spec_C7 pair1 10 (by decide) (by decide)).2 "v" "m" (by decide) (by decide)

/-! ### C1: threshold semantics of TrackFailure -/

theorem runTF_nil (s : TrackerState) (v m : String) : runTF s v m [] = s := rfl

theorem runTF_cons (s : TrackerState) (v m : String) (t : Int) (ts : List Int) :
    runTF s v m (t :: ts) = runTF (TrackFailure s v m t).1 v m ts := rfl

theorem getLastD_irrel {l : List Int} (h : l ≠ []) (d d' : Int) :
    l.getLastD d = l.getLastD d' := by
  cases l with
  | nil => exact absurd rfl h
  | cons a t => rw [List.getLastD_cons, List.getLastD_cons]

theorem getLastD_cons_mem (t : List Int) (a d : Int) :
    (a :: t).getLastD d ∈ a :: t := by
  induction t generalizing a d with
  | nil => simp [List.getLastD_cons, List.getLastD_nil]
  | cons b t' ih =>
    rw [List.getLastD_cons]
    exact List.mem_cons_of_mem _ (ih b a)

theorem trackFailure_singleton (g : Option AutoDisableConfig) (v m : String)
    (vd md : String) (c : Int) (f l da du : Int) (e : AutoDisableConfig)
    (now : Int) :
    (TrackFailure ⟨[(trackerKey v m, ⟨vd, md, c, f, l, da, du, e⟩)], g⟩
        v m now).1 =
      ⟨[(trackerKey v m,
        if now - (effCfg g).timeWindowSeconds < f ∧
            (effCfg g).failureThreshold ≤ inc32 c then
          ⟨vd, md, inc32 c, f, now, now, now + (effCfg g).disableDurationSeconds, e⟩
        else ⟨vd, md, inc32 c, f, now, da, du, e⟩)], g⟩ := by
  rw [trackFailure_existing
    (t := ⟨[(trackerKey v m, ⟨vd, md, c, f, l, da, du, e⟩)], g⟩)
    (r := ⟨vd, md, c, f, l, da, du, e⟩)
    (by simp [findRecord])]
  simp [storeRecord, trackerEffectiveConfig]

theorem trackFailure_empty (g : Option AutoDisableConfig) (v m : String)
    (t1 : Int) :
    (TrackFailure (emptyTracker g) v m t1).1 =
      ⟨[(trackerKey v m,
        if t1 - (effCfg g).timeWindowSeconds < t1 ∧
            (effCfg g).failureThreshold ≤ 1 then
          ⟨v, m, 1, t1, t1, t1, t1 + (effCfg g).disableDurationSeconds, effCfg g⟩
        else ⟨v, m, 1, t1, t1, 0, 0, effCfg g⟩)], g⟩ := by
  rw [trackFailure_fresh (by simp [emptyTracker, findRecord])]
  simp [storeRecord, emptyTracker, trackerEffectiveConfig]

theorem runTF_below (g : Option AutoDisableConfig) (v m : String)
    (e : AutoDisableConfig) :
    ∀ (rest : List Int) (c : Int) (f l : Int),
      1 ≤ c →
      c + rest.length ≤ (effCfg g).failureThreshold - 1 →
      (effCfg g).failureThreshold ≤ 2 ^ 31 - 1 →
      runTF ⟨[(trackerKey v m, ⟨v, m, c, f, l, 0, 0, e⟩)], g⟩ v m rest =
        ⟨[(trackerKey v m,
          ⟨v, m, c + rest.length, f, rest.getLastD l, 0, 0, e⟩)], g⟩ := by
  intro rest
  induction rest with
  | nil =>
    intro c f l h1 h2 h3
    simp [runTF_nil, List.getLastD_nil]
  | cons t rest' ih =>
    intro c f l h1 h2 h3
    simp only [List.length_cons] at h2
    push_cast at h2
    have hlen : (0 : Int) ≤ (rest'.length : Int) := Int.ofNat_nonneg _
    have hinc : inc32 c = c + 1 := inc32_eq_add_one (by omega) (by omega)
    rw [runTF_cons, trackFailure_singleton]
    have hni : ¬(t - (effCfg g).timeWindowSeconds < f ∧
        (effCfg g).failureThreshold ≤ inc32 c) := by
      rintro ⟨-, hb⟩
      rw [hinc] at hb
      omega
    rw [if_neg hni]
    rw [hinc]
    rw [List.getLastD_cons]
    have hcount : c + ((t :: rest').length : Int) = (c + 1) + (rest'.length : Int) := by
      simp only [List.length_cons]
      push_cast
      ring
    rw [hcount]
    exact ih (c + 1) f t (by omega) (by omega) h3

theorem runTF_last (g : Option AutoDisableConfig) (v m : String)
    (e : AutoDisableConfig) :
    ∀ (rest : List Int) (c : Int) (f l : Int),
      1 ≤ c →
      rest ≠ [] →
      c + rest.length = (effCfg g).failureThreshold →
      (effCfg g).failureThreshold ≤ 2 ^ 31 - 1 →
      (∀ t ∈ rest, t - (effCfg g).timeWindowSeconds < f) →
      runTF ⟨[(trackerKey v m, ⟨v, m, c, f, l, 0, 0, e⟩)], g⟩ v m rest =
        ⟨[(trackerKey v m,
          ⟨v, m, (effCfg g).failureThreshold, f, rest.getLastD 0,
           rest.getLastD 0,
           rest.getLastD 0 + (effCfg g).disableDurationSeconds, e⟩)], g⟩ := by
  intro rest
  induction rest with
  | nil =>
    intro c f l _ hne
    exact absurd rfl hne
  | cons t rest' ih =>
    intro c f l h1 _ hsum h31 hwin
    simp only [List.length_cons] at hsum
    push_cast at hsum
    rcases rest' with _ | ⟨t', rest''⟩
    · simp only [List.length_nil, Nat.cast_zero] at hsum
      have hinc : inc32 c = c + 1 := inc32_eq_add_one (by omega) (by omega)
      rw [runTF_cons, trackFailure_singleton]
      have hyes : t - (effCfg g).timeWindowSeconds < f ∧
          (effCfg g).failureThreshold ≤ inc32 c :=
        ⟨hwin t (List.mem_cons_self t []), by rw [hinc]; omega⟩
      rw [if_pos hyes]
      rw [runTF_nil]
      simp only [List.getLastD_cons, List.getLastD_nil]
      rw [hinc]
      rw [show c + 1 = (effCfg g).failureThreshold by omega]
    · simp only [List.length_cons] at hsum
      push_cast at hsum
      have hlen'' : (0 : Int) ≤ (rest''.length : Int) := Int.ofNat_nonneg _
      have hinc : inc32 c = c + 1 := inc32_eq_add_one (by omega) (by omega)
      rw [runTF_cons, trackFailure_singleton]
      have hni : ¬(t - (effCfg g).timeWindowSeconds < f ∧
          (effCfg g).failureThreshold ≤ inc32 c) := by
        rintro ⟨-, hb⟩
        rw [hinc] at hb
        omega
      rw [if_neg hni]
      rw [hinc]
      have hih := ih (c + 1) f t (by omega) (by simp)
        (by
          simp only [List.length_cons]
          push_cast
          omega)
        h31
        (fun u hu => hwin u (List.mem_cons_of_mem _ hu))
      rw [hih]
      simp only [List.getLastD_cons]

/-- C1: starting with no record, after exactly `threshold` `TrackFailure`
calls, each strictly within `timeWindowSeconds` of the first failure, with no
intervening success or enable, `IsDisabled` is true (queried at the moment of
the last failure, given a positive disable duration); after only
`threshold - 1` such calls it is false at every query time.  Side conditions:
the effective threshold is at least 1 and fits in the `int32` counter, and
wall-clock times are positive. -/
theorem spec_C1 (g : Option AutoDisableConfig) (v m : String) (ts : List Int)
    (hthr1 : 1 ≤ (effCfg g).failureThreshold)
    (hthr2 : (effCfg g).failureThreshold ≤ 2 ^ 31 - 1)
    (hdur : 0 < (effCfg g).disableDurationSeconds)
    (hpos : ∀ t ∈ ts, 0 < t)
    (hwin : ∀ t ∈ ts, t - ts.headD 0 < (effCfg g).timeWindowSeconds) :
    ((ts.length : Int) = (effCfg g).failureThreshold →
      (IsDisabled (failTimes g v m ts) v m (ts.getLastD 0)).fst = true) ∧
    ((ts.length : Int) = (effCfg g).failureThreshold - 1 →
      ∀ now : Int, (IsDisabled (failTimes g v m ts) v m now).fst = false) := by
  constructor
  · intro hlen
    rcases ts with _ | ⟨t1, rest⟩
    · exfalso
      simp at hlen
      omega
    · have hstep := trackFailure_empty g v m t1
      have hpos1 : 0 < t1 := hpos t1 (List.mem_cons_self _ _)
      have hW : 0 < (effCfg g).timeWindowSeconds := by
        have := hwin t1 (List.mem_cons_self _ _)
        simpa using this
      by_cases hr : rest = []
      · subst hr
        have h1 : (1 : Int) = (effCfg g).failureThreshold := by simpa using hlen
        rw [show failTimes g v m [t1] = (TrackFailure (emptyTracker g) v m t1).1
          from rfl, hstep]
        have hyes : t1 - (effCfg g).timeWindowSeconds < t1 ∧
            (effCfg g).failureThreshold ≤ 1 := ⟨by omega, by omega⟩
        rw [if_pos hyes]
        simp only [List.getLastD_cons, List.getLastD_nil]
        simp [IsDisabled, findRecord]
        omega
      · have hlen' : 1 + (rest.length : Int) = (effCfg g).failureThreshold := by
          simp only [List.length_cons] at hlen
          push_cast at hlen
          omega
        rw [show failTimes g v m (t1 :: rest) =
          runTF ((TrackFailure (emptyTracker g) v m t1).1) v m rest from rfl,
          hstep]
        have hrl : (0 : Int) < (rest.length : Int) := by
          have := List.length_pos.mpr hr
          exact_mod_cast this
        have hni : ¬(t1 - (effCfg g).timeWindowSeconds < t1 ∧
            (effCfg g).failureThreshold ≤ 1) := by
          rintro ⟨-, hb⟩
          omega
        rw [if_neg hni]
        rw [runTF_last g v m (effCfg g) rest 1 t1 t1 le_rfl hr hlen' hthr2
          (fun u hu => by
            have := hwin u (List.mem_cons_of_mem _ hu)
            simp only [List.headD_cons] at this
            omega)]
        have htn : (t1 :: rest).getLastD 0 = rest.getLastD 0 := by
          rw [List.getLastD_cons]
          exact getLastD_irrel hr t1 0
        rw [htn]
        have htnmem : rest.getLastD 0 ∈ rest := by
          rcases rest with _ | ⟨x, xs⟩
          · exact absurd rfl hr
          · exact getLastD_cons_mem xs x 0
        have hpostn : 0 < rest.getLastD 0 :=
          hpos _ (List.mem_cons_of_mem _ htnmem)
        simp [IsDisabled, findRecord]
        rw [List.getLastD_eq_getLast?] at hpostn
        omega
  · intro hlen now
    rcases ts with _ | ⟨t1, rest⟩
    · simp [failTimes, runTF_nil, IsDisabled, emptyTracker, findRecord]
    · have hlen' : 1 + (rest.length : Int) = (effCfg g).failureThreshold - 1 := by
        simp only [List.length_cons] at hlen
        push_cast at hlen
        omega
      have hrl : (0 : Int) ≤ (rest.length : Int) := Int.ofNat_nonneg _
      rw [show failTimes g v m (t1 :: rest) =
        runTF ((TrackFailure (emptyTracker g) v m t1).1) v m rest from rfl,
        trackFailure_empty]
      have hni : ¬(t1 - (effCfg g).timeWindowSeconds < t1 ∧
          (effCfg g).failureThreshold ≤ 1) := by
        rintro ⟨-, hb⟩
        omega
      rw [if_neg hni]
      rw [runTF_below g v m (effCfg g) rest 1 t1 t1 le_rfl (by omega) hthr2]
      simp [IsDisabled, findRecord]

/-- Witness for C1: default config (threshold 5, window 60, duration 300),
failures at times 1..5 disable the pair; failures at times 1..4 do not. -/
theorem spec_C1_witness :
    (IsDisabled (failTimes none "v" "m" [1, 2, 3, 4, 5]) "v" "m"
      ([1, 2, 3, 4, 5].getLastD 0)).fst = true ∧
    (IsDisabled (failTimes none "v" "m" [1, 2, 3, 4]) "v" "m" 100).fst = false :=
  ⟨(spec_C1 none "v" "m" [1, 2, 3, 4, 5] (by decide) (by decide) (by decide)
      (by decide) (by decide)).1 (by decide),
   (spec_C1 none "v" "m" [1, 2, 3, 4] (by decide) (by decide) (by decide)
      (by decide) (by decide)).2 (by decide) 100⟩

end CLIProxy
